import Mathlib

/-!
# Verification of the `mylib` time-conversion utilities

Shallow embedding of the time-conversion subsystem of `mylib.py`
(`anyToSecs`, `buckets`, `millisToSecs`, `secsToMillis`, `strfTime`,
`strpSecs`) together with proofs about the specified properties.

Modelling conventions:
* Python floats are modelled as exact rationals (`ℚ`); the claims under
  study are about parsing, control flow, truncation versus rounding and
  offset arithmetic, none of which hinge on binary floating-point
  representation error.
* Python exceptions are modelled by values of `PyErr` propagated through
  `Except PyErr`: a function "raises" by returning `.error e`.
* Python dynamic values passed to the public functions are modelled by the
  inductive `PyVal`; `isinstance` tests follow Python's type lattice
  (in particular `bool` is a subtype of `int`, and not of `float`).
* Strings are processed as their underlying `List Char`; `\d` of the
  source's regular expressions is modelled as the ASCII digit test.
-/

/-- Python exception classes that the embedded code can raise.
`valueError` is the class the spec calls `FormatError`; `typeError` is the
class behind the spec's `TypeKind`. -/
inductive PyErr where
  | typeError
  | valueError
  | indexError
  | osError
  | overflowError
deriving DecidableEq, Repr

/-- Python values that may be passed to the library's public functions.
`pynone` stands for any object of a type other than `int`, `bool`,
`float`, `str`. -/
inductive PyVal where
  | int (n : ℤ)
  | bool (b : Bool)
  | float (q : ℚ)
  | str (s : String)
  | pynone
deriving DecidableEq, Repr

instance (ε α : Type) [DecidableEq ε] [DecidableEq α] : DecidableEq (Except ε α) :=
  fun a b =>
    match a, b with
    | .error e, .error f =>
      if h : e = f then .isTrue (congrArg _ h)
      else .isFalse (fun hh => h (Except.error.inj hh))
    | .ok x, .ok y =>
      if h : x = y then .isTrue (congrArg _ h)
      else .isFalse (fun hh => h (Except.ok.inj hh))
    | .error _, .ok _ => .isFalse (fun hh => Except.noConfusion hh)
    | .ok _, .error _ => .isFalse (fun hh => Except.noConfusion hh)

/-- Python `isinstance(v, int)`: `True` for `int` and for `bool`
(`bool` is a subclass of `int`). -/
def isinstanceInt : PyVal → Bool
  | .int _ => true
  | .bool _ => true
  | _ => false

/-- Python `isinstance(v, float)`: `True` only for `float`. -/
def isinstanceFloat : PyVal → Bool
  | .float _ => true
  | _ => false

/-- Python `isinstance(v, str)`. -/
def isinstanceStr : PyVal → Bool
  | .str _ => true
  | _ => false

/-- The numeric value of an `int`-classified `PyVal`
(`True` counts as `1`, `False` as `0`). -/
def intVal : PyVal → ℤ
  | .int n => n
  | .bool b => if b then 1 else 0
  | _ => 0

/-- Python `int(x)` on a rational: truncation toward zero, computed from
the reduced numerator and denominator. -/
def ratTrunc (q : ℚ) : ℤ :=
  q.num.sign * (q.num.natAbs / q.den : ℕ)

/-- Python `round(x)` on a rational: round half to even. -/
def rhe (q : ℚ) : ℤ :=
  if q - ⌊q⌋ < 1/2 then ⌊q⌋
  else if 1/2 < q - ⌊q⌋ then ⌊q⌋ + 1
  else if ⌊q⌋ % 2 = 0 then ⌊q⌋ else ⌊q⌋ + 1

/-- Numeric value of an ASCII digit character. -/
def dv (c : Char) : ℕ := c.toNat - 48

/-- Gregorian leap-year test (as used by `calendar`/`datetime`). -/
def isLeap (y : ℕ) : Bool := y % 4 = 0 && (y % 100 ≠ 0 || y % 400 = 0)

/-- Days before the first of month `mo` (1-based) in year `y`. -/
def daysBeforeMonth (y mo : ℕ) : ℕ :=
  (match mo with
   | 1 => 0 | 2 => 31 | 3 => 59 | 4 => 90 | 5 => 120 | 6 => 151
   | 7 => 181 | 8 => 212 | 9 => 243 | 10 => 273 | 11 => 304 | _ => 334)
  + (if isLeap y && mo > 2 then 1 else 0)

/-- `datetime.date(y, mo, 1).toordinal() + d - 1`: proleptic Gregorian
ordinal of the date (day 1 is 0001-01-01), for `1 ≤ y`. -/
def toordinal (y mo d : ℕ) : ℕ :=
  365 * (y - 1) + (y - 1) / 4 - (y - 1) / 100 + (y - 1) / 400
    + daysBeforeMonth y mo + d

/-- `calendar.timegm` on the parsed `struct_time` fields: seconds since
the Unix epoch of the naive UTC date-time, via
`date(y, mo, 1).toordinal() - 719163 + d - 1` days. -/
def timegm (y mo d h mi s : ℕ) : ℤ :=
  ((((toordinal y mo d : ℤ) - 719163) * 24 + h) * 60 + mi) * 60 + s

/-- The fixed-shape prefix `\d{4}-\d{2}-\d{2}T\d{2}:\d{2}:\d{2}`
(group 1 of the regular expression in `strpSecs`). -/
def shape19 : List Char → Bool
  | [y1, y2, y3, y4, c1, o1, o2, c2, d1, d2, c3, h1, h2, c4, n1, n2, c5, s1, s2] =>
    y1.isDigit && y2.isDigit && y3.isDigit && y4.isDigit && c1 = '-' &&
    o1.isDigit && o2.isDigit && c2 = '-' && d1.isDigit && d2.isDigit &&
    c3 = 'T' && h1.isDigit && h2.isDigit && c4 = ':' && n1.isDigit &&
    n2.isDigit && c5 = ':' && s1.isDigit && s2.isDigit
  | _ => false

/-- `re.fullmatch(r'(\d{4}-\d{2}-\d{2}T\d{2}:\d{2}:\d{2})(\.[0-9]+)(.*)', s)`:
the decomposition into the three groups (the date-time prefix, the digits of
the mandatory fractional part without the dot, and the arbitrary zone tail).
The digit run of group 2 is maximal, as the greedy `[0-9]+` produces. -/
def splitISO (cs : List Char) : Option (List Char × List Char × List Char) :=
  let g1 := cs.take 19
  if shape19 g1 then
    let rest0 := cs.drop 19
    if rest0.head? = some '.' then
      let p := rest0.tail.span Char.isDigit
      if p.1.isEmpty then none else some (g1, p.1, p.2)
    else none
  else none

/-- The zone-suffix handling of `strpSecs`: group 3 of the match.
An empty zone raises `IndexError` (the source reads `zone[0]` unguarded);
a zone whose first character is `'Z'` means offset `0`; a zone matching
`[+-][0-9]{4}` yields `(-60 if zone[0] == '+' else 60) * (HH*60 + MM)`
seconds; anything else raises `ValueError`. -/
def zoneOffset (zone : List Char) : Except PyErr ℤ :=
  match zone with
  | [] => .error .indexError
  | c :: rest =>
    if c = 'Z' then .ok 0
    else
      match c :: rest with
      | [sg, h1, h2, m1, m2] =>
        if (sg = '+' || sg = '-') && h1.isDigit && h2.isDigit &&
            m1.isDigit && m2.isDigit then
          .ok ((if sg = '+' then -60 else 60) *
            ((10 * dv h1 + dv h2) * 60 + (10 * dv m1 + dv m2)))
        else .error .valueError
      | _ => .error .valueError

/-- `calendar.timegm(time.strptime(g1, '%Y-%m-%dT%H:%M:%S'))` on group 1:
`strptime` accepts month 01–12, day 01–31 (not checked against the month),
hour 00–23, minute 00–59, second 00–61, and `timegm` additionally needs
year ≥ 1 for `datetime.date`; any violation raises `ValueError`. -/
def strptimeTimegm (g1 : List Char) : Except PyErr ℤ :=
  match g1 with
  | [y1, y2, y3, y4, c1, o1, o2, c2, d1, d2, c3, h1, h2, c4, n1, n2, c5, s1, s2] =>
    if shape19 [y1, y2, y3, y4, c1, o1, o2, c2, d1, d2, c3, h1, h2, c4, n1, n2, c5, s1, s2] then
      let y := 1000 * dv y1 + 100 * dv y2 + 10 * dv y3 + dv y4
      let mo := 10 * dv o1 + dv o2
      let d := 10 * dv d1 + dv d2
      let h := 10 * dv h1 + dv h2
      let mi := 10 * dv n1 + dv n2
      let s := 10 * dv s1 + dv s2
      if 1 ≤ mo && mo ≤ 12 && 1 ≤ d && d ≤ 31 && h ≤ 23 && mi ≤ 59 && s ≤ 61
          && 1 ≤ y then
        .ok (timegm y mo d h mi s)
      else .error .valueError
    else .error .valueError
  | _ => .error .valueError

/-- `float(m.group(2))` where the group is `.` followed by the digits `ds`:
the exact value of the decimal fraction. -/
def fracVal (ds : List Char) : ℚ :=
  (ds.foldl (fun a c => 10 * a + dv c) 0 : ℕ) / (10 : ℚ) ^ ds.length

/-- `strpSecs(s)`: parse ISO-like datetime text to UTC epoch seconds,
translated clause by clause from the source: regex decomposition, zone
handling (which the source performs first), naive UTC seconds via
`strptime`/`timegm`, fractional seconds, and finally `secs + offset`. -/
def strpSecs (s : String) : Except PyErr ℚ :=
  match splitISO s.data with
  | none => .error .valueError
  | some (g1, ds, zone) =>
    match zoneOffset zone with
    | .error e => .error e
    | .ok off =>
      match strptimeTimegm g1 with
      | .error e => .error e
      | .ok n => .ok ((n : ℚ) + fracVal ds + (off : ℚ))

/-- `anyToSecs(t, offset)`: milliseconds `int` (or `bool`) become
`t/1000.0 + offset`, `float` passes through, `str` is delegated to
`strpSecs`, anything else raises `TypeError`. -/
def anyToSecs (t : PyVal) (offset : ℚ := 0) : Except PyErr ℚ :=
  if isinstanceInt t then .ok ((intVal t : ℚ) / 1000 + offset)
  else if isinstanceFloat t then
    match t with
    | .float q => .ok q
    | _ => .error .typeError
  else if isinstanceStr t then
    match t with
    | .str s => strpSecs s
    | _ => .error .typeError
  else .error .typeError

/-- `millisToSecs(millis, time_delta)`: `millis / 1000.0 + time_delta`. -/
def millisToSecs (millis : ℤ) (time_delta : ℚ := 0) : ℚ :=
  (millis : ℚ) / 1000 + time_delta

/-- `secsToMillis(t, time_delta)`: raises `ValueError` unless `t` is a
`float`, else `int((t - time_delta) * 1000.0)`. -/
def secsToMillis (t : PyVal) (time_delta : ℚ := 0) : Except PyErr ℤ :=
  if isinstanceFloat t then
    match t with
    | .float q => .ok (ratTrunc ((q - time_delta) * 1000))
    | _ => .error .valueError
  else .error .valueError

/-- The fields of a Python `datetime` as produced by
`datetime.fromtimestamp(_, home_zone)`. -/
structure DT where
  year : ℕ
  month : ℕ
  day : ℕ
  hour : ℕ
  minute : ℕ
  second : ℕ
  micro : ℕ
deriving DecidableEq, Repr

/-- `datetime.fromtimestamp`'s split of an epoch timestamp into whole
seconds and a microsecond count in `[0, 10^6)`: `modf`, `round` of the
fractional part (half to even), then the carry adjustments. -/
def splitSecUs (t : ℚ) : ℤ × ℤ :=
  let ip : ℤ := ratTrunc t
  let us : ℤ := rhe ((t - ip) * 1000000)
  if 1000000 ≤ us then (ip + 1, us - 1000000)
  else if us < 0 then (ip - 1, us + 1000000)
  else (ip, us)

/-- Days-since-epoch to proleptic Gregorian `(year, month, day)`
(the standard era-based civil-from-days computation, as performed inside
`datetime`). -/
def civilFromDays (z0 : ℤ) : ℤ × ℕ × ℕ :=
  let z := z0 + 719468
  let era : ℤ := Int.fdiv z 146097
  let doe : ℕ := (z - era * 146097).toNat
  let yoe : ℕ := (doe - doe / 1460 + doe / 36524 - doe / 146096) / 365
  let y : ℤ := (yoe : ℤ) + era * 400
  let doy : ℕ := doe - (365 * yoe + yoe / 4 - yoe / 100)
  let mp : ℕ := (5 * doy + 2) / 153
  let d : ℕ := doy - (153 * mp + 2) / 5 + 1
  let m : ℕ := if mp < 10 then mp + 3 else mp - 9
  (if m ≤ 2 then y + 1 else y, m, d)

/-- UTC second at which US daylight-saving time begins in year `y`
(second Sunday of March, 02:00 EST = 07:00 UTC). Part of the model of the
`pytz` `US/Eastern` zone, applying the post-2007 US rule uniformly. -/
def dstStart (y : ℕ) : ℤ :=
  let d1 : ℤ := (toordinal y 3 1 : ℤ) - 719163
  let w : ℤ := Int.emod (d1 + 4) 7
  (d1 + Int.emod (7 - w) 7 + 7) * 86400 + 7 * 3600

/-- UTC second at which US daylight-saving time ends in year `y`
(first Sunday of November, 02:00 EDT = 06:00 UTC). -/
def dstEnd (y : ℕ) : ℤ :=
  let d1 : ℤ := (toordinal y 11 1 : ℤ) - 719163
  let w : ℤ := Int.emod (d1 + 4) 7
  (d1 + Int.emod (7 - w) 7) * 86400 + 6 * 3600

/-- UTC offset (in seconds) of the configured `home_zone`
(`pytz.timezone('US/Eastern')`) at a given UTC instant: −4 h during
daylight-saving time, −5 h otherwise. -/
def easternOffset (sec : ℤ) : ℤ :=
  let y := (civilFromDays (Int.fdiv sec 86400)).1
  if 1 ≤ y then
    if dstStart y.toNat ≤ sec ∧ sec < dstEnd y.toNat then -14400 else -18000
  else -18000

/-- `datetime.fromtimestamp(t, home_zone)`: the civil fields of the
instant in the home zone. Years outside `datetime`'s `1..9999` range
raise (modelled as `overflowError`, which `strfTime` does not catch). -/
def fromtimestampLocal (t : ℚ) : Except PyErr DT :=
  let p := splitSecUs t
  let lsec := p.1 + easternOffset p.1
  let days := Int.fdiv lsec 86400
  let sod := (Int.emod lsec 86400).toNat
  let c := civilFromDays days
  if 1 ≤ c.1 ∧ c.1 ≤ 9999 then
    .ok ⟨c.1.toNat, c.2.1, c.2.2, sod / 3600, sod / 60 % 60, sod % 60, p.2.toNat⟩
  else .error .overflowError

/-- Two-digit zero-padded decimal rendering (`%m`, `%d`, `%H`, `%M`, `%S`). -/
def pad2 (n : ℕ) : List Char :=
  [Nat.digitChar (n / 10 % 10), Nat.digitChar (n % 10)]

/-- Three-digit zero-padded decimal rendering (keeps only the last three
digits, like `%.3f`'s fractional places seen through `[-4:]`). -/
def pad3 (n : ℕ) : List Char :=
  [Nat.digitChar (n / 100 % 10), Nat.digitChar (n / 10 % 10), Nat.digitChar (n % 10)]

/-- Four-digit zero-padded decimal rendering (`%Y` for years `1..9999`). -/
def pad4 (n : ℕ) : List Char :=
  [Nat.digitChar (n / 1000 % 10), Nat.digitChar (n / 100 % 10),
   Nat.digitChar (n / 10 % 10), Nat.digitChar (n % 10)]

/-- `dt.strftime('%Y-%m-%dT%H:%M:%S')`. -/
def strftimeDefault (dt : DT) : List Char :=
  pad4 dt.year ++ '-' :: pad2 dt.month ++ '-' :: pad2 dt.day ++
    'T' :: pad2 dt.hour ++ ':' :: pad2 dt.minute ++ ':' :: pad2 dt.second

/-- The `strftime` patterns the library is exercised with; only the
default `'%Y-%m-%dT%H:%M:%S'` is modelled (the properties under study
never evaluate any other pattern). -/
inductive Fmt where
  | ymdhms
deriving DecidableEq, Repr

/-- `dt.strftime(fmt)` for the modelled patterns. -/
def strftimeF : Fmt → DT → List Char
  | .ymdhms, dt => strftimeDefault dt

/-- `⌊log2 n⌋` computed by structural recursion on a fuel argument
(so that the kernel can evaluate it); `fuel ≥ n` suffices. -/
def log2fuel : ℕ → ℕ → ℕ
  | 0, _ => 0
  | fuel + 1, n => if n ≤ 1 then 0 else log2fuel fuel (n / 2) + 1

/-- `⌊log2 n⌋` for `n ≥ 1` (and `0` at `0`). -/
def lg2 (n : ℕ) : ℕ := log2fuel n n

/-- Grid exponent of the binary64 binade holding `us/10^6` for
`1 ≤ us ≤ 999999`: the quotient lies in `[2^e, 2^(e+1))` with
`e = lg2 us - 20`, bumped to `lg2 us - 19` when the quotient reaches the
next power of two; the representable doubles there are the multiples of
`2^(e-52) = 2^-k` with `k = 52 - e`. -/
def dbl64k (us : ℕ) : ℕ :=
  if 1000000 * 2 ^ lg2 us ≤ us * 2 ^ 19 then 71 - lg2 us else 72 - lg2 us

/-- The IEEE-754 binary64 value of the Python quotient `us/1000000.0`
for a microsecond count `us ≤ 999999`: both operands are exact in
binary64 and the division is correctly rounded, so this is the nearest
double to the rational `us/10^6` — the value rounded half-to-even onto
the 53-bit grid of spacing `2^-dbl64k us` of its binade. -/
def dbl64us (us : ℕ) : ℚ :=
  if us = 0 then 0
  else (rhe ((us : ℚ) * 2 ^ dbl64k us / 1000000) : ℚ) / 2 ^ dbl64k us

/-- Python fixed-point formatting `.3f` of a nonnegative binary64 value
(given by its exact rational value `q`): Python formats the double's
exact value, rounding it to 3 decimal places half-to-even, and prints
`<integer part>.<3 digits>`. -/
def formatFixed3 (q : ℚ) : List Char :=
  let r : ℤ := rhe (q * 1000)
  Nat.toDigits 10 (r.toNat / 1000) ++ '.' :: pad3 (r.toNat % 1000)

/-- Python `s[-4:]` on a character list. -/
def last4 (l : List Char) : List Char := l.drop (l.length - 4)

/-- `f"{dt.microsecond/1000000.0:.3f}"[-4:]`: the text `strfTime` appends
when `millis` is set — the microseconds are first divided in binary64
floating point, then the resulting double is formatted. -/
def millisSuffix (us : ℕ) : List Char :=
  last4 (formatFixed3 (dbl64us us))

/-- Python `str(value)` for the fallback branches of `strfTime`
(the `float` rendering is never reached by the properties proved here). -/
def pyStr : PyVal → String
  | .int n => toString n
  | .bool b => if b then "True" else "False"
  | .float _ => "float"
  | .str s => s
  | .pynone => "None"

/-- The numeric arm of `strfTime`: `datetime.fromtimestamp(secs, home_zone)`
then `strftime`, with the millisecond suffix when requested; only an
`OSError` is caught (`return str(t)`). -/
def strfNum (t : PyVal) (secs : ℚ) (fmt : Fmt) (millis : Bool) : Except PyErr String :=
  match fromtimestampLocal secs with
  | .error .osError => .ok (pyStr t)
  | .error e => .error e
  | .ok dt => .ok (String.mk (strftimeF fmt dt ++ (if millis then millisSuffix dt.micro else [])))

/-- `strfTime(t, fmt, millis)`: `float` is epoch seconds, `int` (and, via
Python's type lattice, `bool`) is epoch milliseconds converted through
`millisToSecs`, `str` is first parsed with `strpSecs` — only a
`ValueError` from that parse is caught (`return t`) — and any other type
is returned as `str(t)`. -/
def strfTime (t : PyVal) (fmt : Fmt := .ymdhms) (millis : Bool := false) : Except PyErr String :=
  match t with
  | .float q => strfNum t q fmt millis
  | .int n => strfNum t (millisToSecs n) fmt millis
  | .bool b => strfNum t (millisToSecs (if b then 1 else 0)) fmt millis
  | .str s =>
    match strpSecs s with
    | .error .valueError => .ok s
    | .error e => .error e
    | .ok secs => strfNum t secs fmt millis
  | .pynone => .ok (pyStr t)

/-- The zone suffix of the grammar stated in the specification:
exactly `Z`, or `[+-]` followed by four digits. -/
def specZone : List Char → Bool
  | ['Z'] => true
  | [sg, h1, h2, m1, m2] =>
    (sg = '+' || sg = '-') && h1.isDigit && h2.isDigit && m1.isDigit && m2.isDigit
  | _ => false

/-- The specification's grammar for `parseISO` input, written from the
spec's words (not from the source):
`(\d{4}-\d{2}-\d{2}T\d{2}:\d{2}:\d{2})(\.\d+)?(Z|[+-]\d{4})` —
fractional seconds optional, zone suffix mandatory. -/
def specISO (cs : List Char) : Bool :=
  shape19 (cs.take 19) &&
  (match cs.drop 19 with
   | '.' :: rest =>
     let p := rest.span Char.isDigit
     !p.1.isEmpty && specZone p.2
   | rest => specZone rest)

/-- `buckets` inner `while` loop plus the trailing append: walks the
breakpoints, counting (via the maximal `< nxt` run, which is what the
`while`/`break` computes) and finally appends `(low, len(lst) - 1)`. -/
def bucketsAux (n : ℤ) : List ℚ → ℚ → List ℚ → List (ℚ × ℤ)
  | _, low, [] => [(low, n - 1)]
  | r, low, nxt :: rest =>
    let p := r.span (fun v => v < nxt)
    (low, (p.1.length : ℤ)) :: bucketsAux n p.2 nxt rest

/-- `buckets(lst, lows)`: sorts `lst` ascending (Python's stable sort,
modelled by insertion sort), then produces one `(low, count)` pair per
breakpoint and a final pair `(top, len(lst) - 1)`. -/
def buckets (lst : List ℚ) (lows : List ℚ) : List (ℚ × ℤ) :=
  let sorted := lst.insertionSort (· ≤ ·)
  bucketsAux lst.length sorted
    (match sorted with | [] => 0 | x :: _ => x) lows

/-! ## Helper lemmas -/

theorem ratTrunc_eq (q : ℚ) : ratTrunc q = if 0 ≤ q then ⌊q⌋ else ⌈q⌉ := by
  unfold ratTrunc
  rcases lt_trichotomy q.num 0 with hn | hn | hn
  · have hq : ¬ (0 ≤ q) := by
      rw [← Rat.num_nonneg]; omega
    rw [if_neg hq]
    have h1 : ⌈q⌉ = -⌊-q⌋ := by rw [Int.floor_neg]; ring
    rw [h1, Rat.floor_def, Rat.num_neg_eq_neg_num, Rat.den_neg_eq_den]
    have h2 : q.num.sign = -1 := Int.sign_eq_neg_one_iff_neg.mpr hn
    have h3 : (-q.num) = (q.num.natAbs : ℤ) := by omega
    rw [h2, h3, Int.natCast_div]
    ring
  · have hq : (0 : ℚ) ≤ q := by rw [← Rat.num_nonneg]; omega
    rw [if_pos hq, Rat.floor_def, hn]
    simp
  · have hq : (0 : ℚ) ≤ q := by rw [← Rat.num_nonneg]; omega
    rw [if_pos hq, Rat.floor_def]
    have h2 : q.num.sign = 1 := Int.sign_eq_one_iff_pos.mpr hn
    have h3 : (q.num.natAbs : ℤ) = q.num := Int.natAbs_of_nonneg (le_of_lt hn)
    rw [h2, Int.natCast_div, h3]
    ring

theorem rhe_intCast (n : ℤ) : rhe ((n : ℤ) : ℚ) = n := by
  unfold rhe
  norm_num

theorem ratTrunc_intCast (n : ℤ) : ratTrunc ((n : ℤ) : ℚ) = n := by
  rw [ratTrunc_eq]; split <;> simp

theorem splitSecUs_intCast (n : ℤ) : splitSecUs (n : ℚ) = (n, 0) := by
  simp only [splitSecUs, ratTrunc_intCast]
  have h : ((n : ℚ) - (n : ℚ)) * 1000000 = ((0 : ℤ) : ℚ) := by norm_num
  rw [h, rhe_intCast]
  norm_num

theorem fromtimestampLocal_zero :
    fromtimestampLocal ((0 : ℤ) : ℚ) = .ok ⟨1969, 12, 31, 19, 0, 0, 0⟩ := by
  simp only [fromtimestampLocal, splitSecUs_intCast]
  rfl

theorem strfTime_float_zero :
    strfTime (.float ((0 : ℤ) : ℚ)) .ymdhms false = .ok "1969-12-31T19:00:00" := by
  have h : strfTime (.float ((0 : ℤ) : ℚ)) .ymdhms false
      = strfNum (.float ((0 : ℤ) : ℚ)) ((0 : ℤ) : ℚ) .ymdhms false := rfl
  rw [h]
  unfold strfNum
  rw [fromtimestampLocal_zero]
  rfl

theorem shape19_length (l : List Char) (h : shape19 l = true) : l.length = 19 := by
  unfold shape19 at h
  split at h
  · simp_all
  · cases h

theorem splitISO_none_of_short (cs : List Char) (h : cs.length ≤ 20) :
    splitISO cs = none := by
  simp only [splitISO]
  by_cases hs : shape19 (cs.take 19) = true
  · have h19 : (cs.take 19).length = 19 := shape19_length _ hs
    have hl : 19 ≤ cs.length := by
      rw [List.length_take] at h19; omega
    have hd : (cs.drop 19).length ≤ 1 := by
      rw [List.length_drop]; omega
    simp only [hs, if_true]
    match hrest : cs.drop 19 with
    | [] => rfl
    | c :: rest =>
      rw [hrest] at hd
      simp only [List.length_cons] at hd
      have hre : rest = [] := List.eq_nil_of_length_eq_zero (by omega)
      subst hre
      by_cases hc : c = '.'
      · subst hc
        simp only [List.span]
        rfl
      · simp [hc]
  · simp [hs]

theorem strpSecs_of_short (s : String) (h : s.data.length ≤ 20) :
    strpSecs s = .error .valueError := by
  unfold strpSecs
  rw [splitISO_none_of_short s.data h]

theorem strftimeDefault_length (dt : DT) : (strftimeDefault dt).length = 19 := by
  simp [strftimeDefault, pad4, pad2]

theorem strfTime_float_ok_length (s : ℚ) (r : String)
    (h : strfTime (.float s) .ymdhms false = .ok r) : r.data.length ≤ 19 := by
  have h' : strfNum (.float s) s .ymdhms false = .ok r := h
  unfold strfNum at h'
  cases hft : fromtimestampLocal s with
  | error e =>
    rw [hft] at h'
    cases e with
    | osError =>
      simp only [] at h'
      cases h'
      show ("float" : String).data.length ≤ 19
      decide
    | typeError => cases h'
    | valueError => cases h'
    | indexError => cases h'
    | overflowError => cases h'
  | ok dt =>
    rw [hft] at h'
    simp only [] at h'
    cases h'
    simp [strftimeF, strftimeDefault_length]

/-- C2 counterexample: at `s = 0`, `formatLocal` renders the instant as
local text `1969-12-31T19:00:00`, and `parseISO` of that text plus `Z`
raises `FormatError` instead of returning `0`. -/
theorem roundtrip_zero_counterexample :
    strfTime (.float 0) .ymdhms false = .ok "1969-12-31T19:00:00"
    ∧ strpSecs ("1969-12-31T19:00:00" ++ "Z") = .error .valueError := by
  constructor
  · have h := strfTime_float_zero
    rw [Int.cast_zero] at h
    exact h
  · rfl

/-- C2 (amended): for every float instant `s` that `formatLocal` renders
with the default pattern, `parseISO(formatLocal(s, '%Y-%m-%dT%H:%M:%S') + 'Z')`
raises `FormatError` (the formatted text lacks the fractional seconds that
`strpSecs`'s regular expression requires), rather than recovering `s`
truncated to whole seconds. -/
theorem roundtrip_parse_error (s : ℚ) (r : String)
    (h : strfTime (.float s) .ymdhms false = .ok r) :
    strpSecs (r ++ "Z") = .error .valueError := by
  apply strpSecs_of_short
  rw [String.data_append, List.length_append]
  have hr := strfTime_float_ok_length s r h
  have hz : ("Z" : String).data.length = 1 := rfl
  omega

/-- C2 witness: the amended round-trip statement at the concrete instant `0`. -/
theorem roundtrip_parse_error_witness :
    strpSecs ("1969-12-31T19:00:00" ++ "Z") = .error .valueError :=
  roundtrip_parse_error ((0 : ℤ) : ℚ) "1969-12-31T19:00:00" strfTime_float_zero

/-- C1: the code disagrees with the specified grammar.
`2023-11-14T22:13:20Z` matches the spec grammar (fraction optional) yet
`strpSecs` rejects it, because the source regex makes the fractional part
mandatory; `2023-11-14T22:13:20.5Zulu` is outside the spec grammar yet
parses successfully (any zone beginning with `Z` is accepted); and
`2023-11-14T22:13:20.5` (empty zone) raises `IndexError`, not the promised
`FormatError`. -/
theorem strpSecs_grammar_divergence :
    specISO ("2023-11-14T22:13:20Z".data) = true
    ∧ strpSecs "2023-11-14T22:13:20Z" = .error .valueError
    ∧ specISO ("2023-11-14T22:13:20.5Zulu".data) = false
    ∧ strpSecs "2023-11-14T22:13:20.5Zulu" = .ok (1700000000 + 5 / 10)
    ∧ strpSecs "2023-11-14T22:13:20.5" = .error .indexError := by
  refine ⟨rfl, rfl, rfl, ?_, rfl⟩
  have h1 : splitISO ("2023-11-14T22:13:20.5Zulu".data) =
      some ("2023-11-14T22:13:20".data, ['5'], "Zulu".data) := rfl
  have h2 : zoneOffset ("Zulu".data) = .ok 0 := rfl
  have h3 : strptimeTimegm ("2023-11-14T22:13:20".data) = .ok 1700000000 := by rfl
  simp [strpSecs, h1, h2, h3, fracVal, dv]

/-- C3: `formatLocal` is not exception-free. On the string input
`2023-01-01T00:00:00.5` (valid prefix, fractional part, empty zone) the
inner `strpSecs` raises `IndexError`, which the `except ValueError`
handler does not catch, so `strfTime` propagates the exception for every
pattern and `millis` flag, instead of returning the string unchanged. -/
theorem strfTime_raises_indexError (fmt : Fmt) (millis : Bool) :
    strfTime (.str "2023-01-01T00:00:00.5") fmt millis = .error .indexError := by
  rfl

/-- C5 counterexample: `secsToMillis` rejects the integer input
`1700000000` with `ValueError` — the very class the spec calls
`FormatError` — and not with the `TypeError` kind that `anyToSecs`
(`toSeconds`) raises, contradicting the claimed shared `TypeKind`. -/
theorem secsToMillis_int_valueError :
    secsToMillis (.int 1700000000) 0 = .error .valueError
    ∧ PyErr.valueError ≠ PyErr.typeError := ⟨rfl, by decide⟩

/-- C5 (amended): for every input that is not a true float,
`secsToMillis` raises `ValueError` — the same exception class `strpSecs`
uses for format errors — while `anyToSecs` raises `TypeError` for
unsupported types; the two classes are distinct. -/
theorem secsToMillis_nonfloat_kind :
    (∀ v : PyVal, ∀ d : ℚ, isinstanceFloat v = false →
      secsToMillis v d = .error .valueError)
    ∧ anyToSecs .pynone 0 = .error .typeError
    ∧ PyErr.valueError ≠ PyErr.typeError := by
  refine ⟨?_, rfl, by decide⟩
  intro v d hv
  cases v <;> simp_all [secsToMillis, isinstanceFloat]

/-- C5 witness: the amended statement at the concrete integer input `3`. -/
theorem secsToMillis_nonfloat_kind_witness :
    secsToMillis (.int 3) 0 = .error .valueError :=
  secsToMillis_nonfloat_kind.1 (.int 3) 0 rfl

/-- C6: `secsToMillis(seconds, delta)` computes
`round_toward_zero((seconds - delta) * 1000)` — the floor for nonnegative
arguments, the ceiling for negative ones (truncation, never rounding) —
and in particular maps `1700000000.999` to `1700000000999`. -/
theorem secsToMillis_truncates (q d : ℚ) :
    secsToMillis (.float q) d
      = .ok (if 0 ≤ (q - d) * 1000 then ⌊(q - d) * 1000⌋ else ⌈(q - d) * 1000⌉)
    ∧ secsToMillis (.float (1700000000 + 999 / 1000)) 0 = .ok 1700000000999 := by
  constructor
  · simp [secsToMillis, isinstanceFloat, ratTrunc_eq]
  · show Except.ok (ratTrunc ((1700000000 + 999 / 1000 - 0) * 1000)) = _
    have h : ((1700000000 : ℚ) + 999 / 1000 - 0) * 1000 = ((1700000000999 : ℤ) : ℚ) := by
      norm_num
    rw [h, ratTrunc_intCast]

/-- C8: `anyToSecs` (`toSeconds`) returns `value/1000 + offset` for every
integer, returns every float unchanged (offset ignored), delegates every
string to `strpSecs` (offset ignored), and raises `TypeError` for every
value of any other type. -/
theorem anyToSecs_cases :
    (∀ n : ℤ, ∀ offset : ℚ, anyToSecs (.int n) offset = .ok ((n : ℚ) / 1000 + offset))
    ∧ (∀ q : ℚ, ∀ offset : ℚ, anyToSecs (.float q) offset = .ok q)
    ∧ (∀ s : String, ∀ offset : ℚ, anyToSecs (.str s) offset = strpSecs s)
    ∧ (∀ v : PyVal, ∀ offset : ℚ, isinstanceInt v = false → isinstanceFloat v = false →
        isinstanceStr v = false → anyToSecs v offset = .error .typeError) := by
  refine ⟨fun n offset => rfl, fun q offset => rfl, fun s offset => rfl, ?_⟩
  intro v offset h1 h2 h3
  cases v <;> simp_all [anyToSecs, isinstanceInt, isinstanceFloat, isinstanceStr]

/-- C8 witness: the other-type clause at a concrete non-numeric value. -/
theorem anyToSecs_cases_witness :
    anyToSecs .pynone 5 = .error .typeError :=
  anyToSecs_cases.2.2.2 .pynone 5 rfl rfl rfl

/-- C9: booleans pass the integer `isinstance` test at the public
interface, so `anyToSecs(b, offset)` does not raise `TypeError` but takes
the integer-milliseconds path, returning `(1 if b else 0)/1000 + offset`. -/
theorem anyToSecs_bool (b : Bool) (offset : ℚ) :
    isinstanceInt (.bool b) = true
    ∧ anyToSecs (.bool b) offset = .ok (((if b then 1 else 0 : ℤ) : ℚ) / 1000 + offset) := by
  cases b <;> exact ⟨rfl, rfl⟩

theorem bucketsAux_ne_nil (n : ℤ) (r : List ℚ) (low : ℚ) (l : List ℚ) :
    bucketsAux n r low l ≠ [] := by
  cases l <;> simp [bucketsAux]

theorem bucketsAux_getLast (n : ℤ) (l : List ℚ) :
    ∀ (r : List ℚ) (low : ℚ),
      (bucketsAux n r low l).getLast?.map Prod.snd = some (n - 1) := by
  induction l with
  | nil => intro r low; rfl
  | cons nxt rest ih =>
    intro r low
    simp only [bucketsAux]
    rcases hb : bucketsAux n (r.span (fun v => v < nxt)).2 nxt rest with _ | ⟨y, ys⟩
    · exact absurd hb (bucketsAux_ne_nil n _ nxt rest)
    · have h2 := ih (r.span (fun v => v < nxt)).2 nxt
      rw [hb] at h2
      rw [List.getLast?_cons_cons]
      exact h2

/-- C10: for every value list and every ascending breakpoint list, the
final pair `buckets` appends carries the count `len(lst) - 1`, whatever
the number of values at or above the top breakpoint actually is. -/
theorem buckets_last_count (lst lows : List ℚ) (_hasc : lows.Chain' (· < ·)) :
    (buckets lst lows).getLast?.map Prod.snd = some ((lst.length : ℤ) - 1) := by
  unfold buckets
  exact bucketsAux_getLast _ _ _ _

/-- C10 witness: the single value `3` with breakpoints `1 < 2`: the final
pair's count is `1 - 1 = 0` even though one value lies above the top. -/
theorem buckets_last_count_witness :
    (buckets ([3] : List ℚ) [1, 2]).getLast?.map Prod.snd
      = some ((([3] : List ℚ).length : ℤ) - 1) :=
  buckets_last_count [3] [1, 2]
    (List.chain'_cons.mpr ⟨by norm_num, List.chain'_singleton 2⟩)

theorem rhe_bounds (q : ℚ) : ⌊q⌋ ≤ rhe q ∧ rhe q ≤ ⌊q⌋ + 1 := by
  unfold rhe
  split_ifs <;> omega

theorem splitSecUs_sample : splitSecUs (123999 / 1000000 : ℚ) = (0, 123999) := by
  have h1 : ratTrunc (123999 / 1000000 : ℚ) = (0 : ℤ) := by
    rw [ratTrunc_eq, if_pos (by norm_num : (0:ℚ) ≤ 123999 / 1000000)]
    norm_num
  simp only [splitSecUs, h1]
  have h2 : ((123999 / 1000000 : ℚ) - ((0 : ℤ) : ℚ)) * 1000000 = ((123999 : ℤ) : ℚ) := by
    norm_num
  rw [h2, rhe_intCast]
  norm_num

theorem fromtimestampLocal_sample :
    fromtimestampLocal (123999 / 1000000 : ℚ) = .ok ⟨1969, 12, 31, 19, 0, 0, 123999⟩ := by
  simp only [fromtimestampLocal, splitSecUs_sample]
  rfl

theorem rhe_dist (q : ℚ) : |(rhe q : ℚ) - q| ≤ 1 / 2 := by
  have h1 := Int.floor_le q
  have h2 := Int.lt_floor_add_one q
  unfold rhe
  split_ifs with ha hb hc <;> rw [abs_le] <;> constructor <;> push_cast <;> linarith

theorem rhe_eq_of_close (x : ℚ) (n : ℤ) (h : |x - (n : ℚ)| < 1 / 2) : rhe x = n := by
  rw [abs_lt] at h
  rcases le_or_lt (n : ℚ) x with hge | hlt
  · have hfl : ⌊x⌋ = n := by
      rw [Int.floor_eq_iff]
      refine ⟨hge, ?_⟩
      linarith [h.2]
    unfold rhe
    rw [hfl, if_pos (by linarith)]
  · have hfl : ⌊x⌋ = n - 1 := by
      rw [Int.floor_eq_iff]
      constructor <;> push_cast <;> linarith
    unfold rhe
    rw [hfl, if_neg (by push_cast; linarith), if_pos (by push_cast; linarith)]
    omega

theorem log2fuel_le (fuel : ℕ) : ∀ (n k : ℕ), n < 2 ^ (k + 1) → log2fuel fuel n ≤ k := by
  induction fuel with
  | zero => intro n k _; exact Nat.zero_le k
  | succ f ih =>
    intro n k h
    unfold log2fuel
    split_ifs with h1
    · exact Nat.zero_le k
    · have hk : 1 ≤ k := by
        rcases Nat.eq_zero_or_pos k with hk0 | hk1
        · subst hk0
          norm_num at h
          omega
        · exact hk1
      have hdiv : n / 2 < 2 ^ k := by
        rw [Nat.div_lt_iff_lt_mul (by norm_num : 0 < 2)]
        calc n < 2 ^ (k + 1) := h
          _ = 2 ^ k * 2 := pow_succ 2 k
      have hkk : n / 2 < 2 ^ ((k - 1) + 1) := by
        rwa [Nat.sub_add_cancel hk]
      have hih := ih (n / 2) (k - 1) hkk
      omega

theorem lg2_le_19 (us : ℕ) (h : us ≤ 999999) : lg2 us ≤ 19 := by
  apply log2fuel_le
  norm_num
  omega

theorem dblStep_close (us k : ℕ) (hk : 53 ≤ k) :
    |(rhe ((us : ℚ) * 2 ^ k / 1000000) : ℚ) / 2 ^ k - (us : ℚ) / 1000000| ≤ 1 / 2 ^ 54 := by
  have h2k : (0 : ℚ) < 2 ^ k := by positivity
  have hd := rhe_dist ((us : ℚ) * 2 ^ k / 1000000)
  have heq : (rhe ((us : ℚ) * 2 ^ k / 1000000) : ℚ) / 2 ^ k - (us : ℚ) / 1000000
      = ((rhe ((us : ℚ) * 2 ^ k / 1000000) : ℚ) - (us : ℚ) * 2 ^ k / 1000000) / 2 ^ k := by
    field_simp
    ring
  rw [heq, abs_div, abs_of_pos h2k]
  have hstep : |(rhe ((us : ℚ) * 2 ^ k / 1000000) : ℚ) - (us : ℚ) * 2 ^ k / 1000000| / 2 ^ k
      ≤ (1 / 2) / 2 ^ k := by
    exact div_le_div_of_nonneg_right hd h2k.le
  have hfin : (1 / 2 : ℚ) / 2 ^ k ≤ 1 / 2 ^ 54 := by
    rw [div_div]
    apply one_div_le_one_div_of_le (by positivity)
    calc (2 : ℚ) ^ 54 = 2 * 2 ^ 53 := by ring
      _ ≤ 2 * 2 ^ k := by
        have hpow : (2 : ℚ) ^ 53 ≤ 2 ^ k := by
          apply pow_le_pow_right₀ (by norm_num) hk
        linarith
  linarith

theorem dbl64k_ge (us : ℕ) (h1 : 1 ≤ us) (h2 : us ≤ 999999) : 53 ≤ dbl64k us := by
  have hL : lg2 us ≤ 19 := lg2_le_19 us h2
  unfold dbl64k
  split_ifs with hc
  · have h19 : lg2 us ≤ 18 := by
      by_contra hgt
      have h19e : lg2 us = 19 := by omega
      rw [h19e] at hc
      have hle : 1000000 ≤ us := Nat.le_of_mul_le_mul_right hc (by positivity)
      omega
    omega
  · omega

theorem dbl64us_close (us : ℕ) (h2 : us ≤ 999999) :
    |dbl64us us - (us : ℚ) / 1000000| ≤ 1 / 2 ^ 54 := by
  rcases Nat.eq_zero_or_pos us with h0 | h1
  · subst h0
    norm_num [dbl64us]
  · unfold dbl64us
    rw [if_neg (by omega)]
    exact dblStep_close us (dbl64k us) (dbl64k_ge us h1 h2)

theorem millisSuffix_eq (us : ℕ) (h : us ≤ 999999) (htie : us % 1000 ≠ 500) :
    millisSuffix us = '.' :: pad3 (rhe ((us : ℚ) / 1000)).toNat := by
  set n := rhe ((us : ℚ) / 1000) with hn
  have hb0 : us % 1000 < 1000 := Nat.mod_lt us (by norm_num)
  have hmQ : ((1000 * (us / 1000) + us % 1000 : ℕ) : ℚ) = (us : ℚ) := by
    exact_mod_cast congrArg (fun m : ℕ => (m : ℚ)) (Nat.div_add_mod us 1000)
  push_cast at hmQ
  have hx : (us : ℚ) / 1000 = ((us / 1000 : ℕ) : ℚ) + ((us % 1000 : ℕ) : ℚ) / 1000 := by
    field_simp
    linarith
  have hfl : ⌊(us : ℚ) / 1000⌋ = ((us / 1000 : ℕ) : ℤ) := by
    rw [Int.floor_eq_iff, Int.cast_natCast]
    constructor
    · rw [hx]
      have : (0 : ℚ) ≤ ((us % 1000 : ℕ) : ℚ) / 1000 := by positivity
      linarith
    · rw [hx]
      have : ((us % 1000 : ℕ) : ℚ) < 1000 := by exact_mod_cast hb0
      linarith
  have hfrac : (us : ℚ) / 1000 - (⌊(us : ℚ) / 1000⌋ : ℚ) = ((us % 1000 : ℕ) : ℚ) / 1000 := by
    rw [hfl, Int.cast_natCast, hx]
    ring
  have hfar : |(us : ℚ) / 1000 - (n : ℚ)| ≤ 499 / 1000 := by
    rcases lt_or_gt_of_ne htie with hblt | hbgt
    · have hble : ((us % 1000 : ℕ) : ℚ) ≤ 499 := by
        exact_mod_cast (by omega : us % 1000 ≤ 499)
      have hfr2 : (us : ℚ) / 1000 - (⌊(us : ℚ) / 1000⌋ : ℚ) < 1 / 2 := by
        rw [hfrac]
        linarith
      have hneq : n = ⌊(us : ℚ) / 1000⌋ := by
        rw [hn]
        unfold rhe
        rw [if_pos hfr2]
      rw [hneq, abs_le]
      constructor
      · have := Int.floor_le ((us : ℚ) / 1000)
        linarith
      · rw [show (us : ℚ) / 1000 - (⌊(us : ℚ) / 1000⌋ : ℚ) = ((us % 1000 : ℕ) : ℚ) / 1000 from hfrac]
        linarith
    · have hble : (501 : ℚ) ≤ ((us % 1000 : ℕ) : ℚ) := by
        exact_mod_cast (by omega : 501 ≤ us % 1000)
      have hblt1000 : ((us % 1000 : ℕ) : ℚ) ≤ 999 := by
        exact_mod_cast (by omega : us % 1000 ≤ 999)
      have hfr2 : ¬ ((us : ℚ) / 1000 - (⌊(us : ℚ) / 1000⌋ : ℚ) < 1 / 2) := by
        rw [hfrac]
        push_neg
        linarith
      have hfr3 : 1 / 2 < (us : ℚ) / 1000 - (⌊(us : ℚ) / 1000⌋ : ℚ) := by
        rw [hfrac]
        linarith
      have hneq : n = ⌊(us : ℚ) / 1000⌋ + 1 := by
        rw [hn]
        unfold rhe
        rw [if_neg hfr2, if_pos hfr3]
      rw [hneq, abs_le]
      constructor
      · push_cast
        have h9 : (us : ℚ) / 1000 - (⌊(us : ℚ) / 1000⌋ : ℚ) ≤ 999 / 1000 := by
          rw [hfrac]
          linarith
        linarith
      · push_cast
        linarith [hfr3]
  have hclose : |dbl64us us * 1000 - (n : ℚ)| < 1 / 2 := by
    have hd := dbl64us_close us h
    have h1 : |dbl64us us * 1000 - (us : ℚ) / 1000| ≤ 1000 / 2 ^ 54 := by
      have heq2 : dbl64us us * 1000 - (us : ℚ) / 1000
          = (dbl64us us - (us : ℚ) / 1000000) * 1000 := by
        ring
      rw [heq2, abs_mul]
      rw [show |(1000 : ℚ)| = 1000 from abs_of_pos (by norm_num)]
      calc |dbl64us us - (us : ℚ) / 1000000| * 1000 ≤ (1 / 2 ^ 54) * 1000 := by
            apply mul_le_mul_of_nonneg_right hd (by norm_num)
        _ = 1000 / 2 ^ 54 := by ring
    calc |dbl64us us * 1000 - (n : ℚ)|
        ≤ |dbl64us us * 1000 - (us : ℚ) / 1000| + |(us : ℚ) / 1000 - (n : ℚ)| :=
          abs_sub_le _ _ _
      _ ≤ 1000 / 2 ^ 54 + 499 / 1000 := by linarith
      _ < 1 / 2 := by norm_num
  have hr : rhe (dbl64us us * 1000) = n := rhe_eq_of_close _ _ hclose
  have hb := rhe_bounds ((us : ℚ) / 1000)
  have h0 : 0 ≤ n := by
    have hfl0 : (0 : ℤ) ≤ ⌊(us : ℚ) / 1000⌋ := by
      rw [Int.floor_nonneg]
      positivity
    omega
  have h1n : n ≤ 1000 := by
    have hfl1 : ⌊(us : ℚ) / 1000⌋ < 1000 := by
      rw [Int.floor_lt]
      rw [div_lt_iff₀ (by norm_num : (0 : ℚ) < 1000)]
      push_cast
      exact_mod_cast (by omega : (us : ℤ) < 1000000)
    omega
  simp only [millisSuffix, formatFixed3, hr]
  rcases eq_or_lt_of_le h1n with he | hlt
  · rw [he]
    decide
  · have ht2 : n.toNat < 1000 := by omega
    have hdiv : n.toNat / 1000 = 0 := Nat.div_eq_of_lt ht2
    have hmod : n.toNat % 1000 = n.toNat := Nat.mod_eq_of_lt ht2
    simp only [hdiv, hmod]
    simp [last4, pad3]

theorem dbl64us_123999 : dbl64us 123999 = (8935069603109026 : ℚ) / 2 ^ 56 := by
  unfold dbl64us
  rw [if_neg (by norm_num)]
  have hk : dbl64k 123999 = 56 := by rfl
  rw [hk]
  rw [show ((123999 : ℕ) : ℚ) = (123999 : ℚ) from by norm_num]
  have hr : rhe ((123999 : ℚ) * 2 ^ 56 / 1000000) = 8935069603109026 := by
    unfold rhe
    norm_num
  rw [hr]
  norm_num

theorem millisSuffix_123999 : millisSuffix 123999 = ['.', '1', '2', '4'] := by
  unfold millisSuffix
  rw [dbl64us_123999]
  have hr : rhe ((8935069603109026 : ℚ) / 2 ^ 56 * 1000) = 124 := by
    unfold rhe
    norm_num
  simp only [formatFixed3, hr]
  rfl

theorem dbl64us_500 : dbl64us 500 = (4611686018427388 : ℚ) / 2 ^ 63 := by
  unfold dbl64us
  rw [if_neg (by norm_num)]
  have hk : dbl64k 500 = 63 := by rfl
  rw [hk]
  rw [show ((500 : ℕ) : ℚ) = (500 : ℚ) from by norm_num]
  have hr : rhe ((500 : ℚ) * 2 ^ 63 / 1000000) = 4611686018427388 := by
    unfold rhe
    norm_num
  rw [hr]
  norm_num

theorem millisSuffix_500 : millisSuffix 500 = ['.', '0', '0', '1'] := by
  unfold millisSuffix
  rw [dbl64us_500]
  have hr : rhe ((4611686018427388 : ℚ) / 2 ^ 63 * 1000) = 1 := by
    unfold rhe
    norm_num
  simp only [formatFixed3, hr]
  rfl

theorem dbl64us_2500 : dbl64us 2500 = (5764607523034235 : ℚ) / 2 ^ 61 := by
  unfold dbl64us
  rw [if_neg (by norm_num)]
  have hk : dbl64k 2500 = 61 := by rfl
  rw [hk]
  rw [show ((2500 : ℕ) : ℚ) = (2500 : ℚ) from by norm_num]
  have hr : rhe ((2500 : ℚ) * 2 ^ 61 / 1000000) = 5764607523034235 := by
    unfold rhe
    norm_num
  rw [hr]
  norm_num

theorem millisSuffix_2500 : millisSuffix 2500 = ['.', '0', '0', '3'] := by
  unfold millisSuffix
  rw [dbl64us_2500]
  have hr : rhe ((5764607523034235 : ℚ) / 2 ^ 61 * 1000) = 3 := by
    unfold rhe
    norm_num
  simp only [formatFixed3, hr]
  rfl

theorem dbl64us_5500 : dbl64us 5500 = (6341068275337658 : ℚ) / 2 ^ 60 := by
  unfold dbl64us
  rw [if_neg (by norm_num)]
  have hk : dbl64k 5500 = 60 := by rfl
  rw [hk]
  rw [show ((5500 : ℕ) : ℚ) = (5500 : ℚ) from by norm_num]
  have hr : rhe ((5500 : ℚ) * 2 ^ 60 / 1000000) = 6341068275337658 := by
    unfold rhe
    norm_num
  rw [hr]
  norm_num

theorem millisSuffix_5500 : millisSuffix 5500 = ['.', '0', '0', '5'] := by
  unfold millisSuffix
  rw [dbl64us_5500]
  have hr : rhe ((6341068275337658 : ℚ) / 2 ^ 60 * 1000) = 5 := by
    unfold rhe
    norm_num
  simp only [formatFixed3, hr]
  rfl

theorem strfTime_millis_sample :
    strfTime (.float (123999 / 1000000 : ℚ)) .ymdhms true = .ok "1969-12-31T19:00:00.124" := by
  have h : strfTime (.float (123999 / 1000000 : ℚ)) .ymdhms true
      = strfNum (.float (123999 / 1000000 : ℚ)) (123999 / 1000000 : ℚ) .ymdhms true := rfl
  rw [h]
  unfold strfNum
  rw [fromtimestampLocal_sample]
  show Except.ok (String.mk (strftimeF Fmt.ymdhms ⟨1969, 12, 31, 19, 0, 0, 123999⟩
      ++ millisSuffix 123999)) = Except.ok "1969-12-31T19:00:00.124"
  rw [millisSuffix_123999]
  rfl

/-- C4 counterexample: at microsecond value `123999` (instant `0.123999`)
the appended fraction is `.124` — the `%.3f` formatting rounds — and not
the truncation `.123` the claim prescribes. -/
theorem strfTime_millis_not_truncation :
    strfTime (.float (123999 / 1000000 : ℚ)) .ymdhms true = .ok "1969-12-31T19:00:00.124"
    ∧ millisSuffix 123999 ≠ '.' :: pad3 (123999 / 1000) := by
  refine ⟨strfTime_millis_sample, ?_⟩
  rw [millisSuffix_123999]
  decide

/-- C4 (amended): with `withMillis` set, `strfTime` appends the last four
characters of the `%.3f` formatting of the binary64 quotient
`microseconds/1000000.0` — rounding, not truncation: whenever
`microseconds % 1000 ≠ 500` the appended text is `.` followed by the
three digits of the integer nearest to `microseconds/1000` (reduced mod
1000 when that rounding reaches 1000), as at the instant `0.123999`,
whose output is `1969-12-31T19:00:00.124`; at half-millisecond ties the
binary64 representation of the quotient decides the digit, as the
microsecond values 500, 2500 and 5500 show. -/
theorem strfTime_millis_rounds (us : ℕ) (h : us ≤ 999999) (htie : us % 1000 ≠ 500) :
    millisSuffix us = '.' :: pad3 (rhe ((us : ℚ) / 1000)).toNat
    ∧ strfTime (.float (123999 / 1000000 : ℚ)) .ymdhms true = .ok "1969-12-31T19:00:00.124"
    ∧ millisSuffix 500 = ['.', '0', '0', '1']
    ∧ millisSuffix 2500 = ['.', '0', '0', '3']
    ∧ millisSuffix 5500 = ['.', '0', '0', '5'] :=
  ⟨millisSuffix_eq us h htie, strfTime_millis_sample,
    millisSuffix_500, millisSuffix_2500, millisSuffix_5500⟩

/-- C4 witness: the amended statement at microsecond value `500000`
(not a half-millisecond tie). -/
theorem strfTime_millis_rounds_witness :
    millisSuffix 500000 = '.' :: pad3 (rhe (((500000 : ℕ) : ℚ) / 1000)).toNat
    ∧ strfTime (.float (123999 / 1000000 : ℚ)) .ymdhms true = .ok "1969-12-31T19:00:00.124"
    ∧ millisSuffix 500 = ['.', '0', '0', '1']
    ∧ millisSuffix 2500 = ['.', '0', '0', '3']
    ∧ millisSuffix 5500 = ['.', '0', '0', '5'] :=
  strfTime_millis_rounds 500000 (by norm_num) (by norm_num)

/-- C7: zone arithmetic of `strpSecs`. For every accepted text whose zone
suffix is `+HHMM` or `-HHMM`, the result is the naive UTC value of the
date-time part plus the fractional seconds, with `HH*60+MM` minutes
subtracted for `+` and added for `-`; a zone of exactly `Z` contributes
offset zero. -/
theorem strpSecs_zone_semantics :
    (∀ (s : String) (g1 ds : List Char) (sg d1 d2 d3 d4 : Char) (n : ℤ),
      splitISO s.data = some (g1, ds, [sg, d1, d2, d3, d4]) →
      d1.isDigit = true → d2.isDigit = true → d3.isDigit = true → d4.isDigit = true →
      strptimeTimegm g1 = .ok n →
      (sg = '+' →
        strpSecs s = .ok ((n : ℚ) + fracVal ds
          - 60 * ((((10 * dv d1 + dv d2) * 60 + (10 * dv d3 + dv d4)) : ℕ) : ℚ)))
      ∧ (sg = '-' →
        strpSecs s = .ok ((n : ℚ) + fracVal ds
          + 60 * ((((10 * dv d1 + dv d2) * 60 + (10 * dv d3 + dv d4)) : ℕ) : ℚ))))
    ∧ (∀ (s : String) (g1 ds : List Char) (n : ℤ),
      splitISO s.data = some (g1, ds, ['Z']) →
      strptimeTimegm g1 = .ok n →
      strpSecs s = .ok ((n : ℚ) + fracVal ds)) := by
  constructor
  · intro s g1 ds sg d1 d2 d3 d4 n hsplit hd1 hd2 hd3 hd4 hn
    constructor
    · intro hsg; subst hsg
      have hz : zoneOffset ['+', d1, d2, d3, d4]
          = .ok (-60 * (((10 * dv d1 + dv d2) * 60 + (10 * dv d3 + dv d4) : ℕ) : ℤ)) := by
        simp [zoneOffset, hd1, hd2, hd3, hd4]
      simp only [strpSecs, hsplit, hz, hn]
      congr 1
      push_cast
      ring
    · intro hsg; subst hsg
      have hz : zoneOffset ['-', d1, d2, d3, d4]
          = .ok (60 * (((10 * dv d1 + dv d2) * 60 + (10 * dv d3 + dv d4) : ℕ) : ℤ)) := by
        simp [zoneOffset, hd1, hd2, hd3, hd4]
      simp only [strpSecs, hsplit, hz, hn]
      congr 1
      push_cast
      ring
  · intro s g1 ds n hsplit hn
    have hz : zoneOffset ['Z'] = .ok 0 := rfl
    simp only [strpSecs, hsplit, hz, hn]
    congr 1
    push_cast
    ring

/-- C7 witness: `2023-11-14T22:13:20.123+0500` — the `+0500` suffix
subtracts exactly `5*60 + 0 = 300` minutes from the naive UTC value
`1700000000` plus the fraction `0.123`. -/
theorem strpSecs_zone_semantics_witness :
    strpSecs "2023-11-14T22:13:20.123+0500"
      = .ok (((1700000000 : ℤ) : ℚ) + fracVal ['1', '2', '3']
        - 60 * ((((10 * dv '0' + dv '5') * 60 + (10 * dv '0' + dv '0')) : ℕ) : ℚ)) :=
  (strpSecs_zone_semantics.1 "2023-11-14T22:13:20.123+0500"
      ("2023-11-14T22:13:20".data) ['1', '2', '3'] '+' '0' '5' '0' '0' 1700000000
      rfl rfl rfl rfl rfl (by rfl)).1 rfl
